import Mathlib

/-!
Verification of the core of `eslint-plugin-restrict-replace-import`
(src/rules/restrict-import.ts): the restriction table built by
`createRestrictedPackagesMap`, the decision engine `checkIsRestrictedImport`
and the per-binding resolution loop of `create`, and the rewrite engine
(`createImportText`, `updateExistingImport`, `createStringReplacer`,
`createPatternReplacer`, `createModuleReplacer`,
`createMultiNamedImportReplacer`).

The source compiles each configured `target` string to a JavaScript
`RegExp` with `new RegExp('^' + target + '$')` and queries it with
`.test(specifier)`.  We embed the parsed form of a target as an explicit
regex AST (`Regex`) covering the constructs configurations use
(literal characters, concatenation, alternation, greedy `?` groups), and
model the anchored `.test` of the wrapped pattern as a full-string match
of the target's AST in JavaScript backtracking preference order.  A bare
string target without regex metacharacters parses to the literal chain
`Regex.ofString`.

All text manipulation is modelled on `List Char` / `String` values, and
every definition is executable so that concrete scenarios from the rule's
own test-suite evaluate by `decide` / `rfl`.
-/

namespace RestrictImport

/-- Regex AST: the subset of JavaScript `RegExp` syntax exercised by the
plugin's configurations (character literals, concatenation, alternation
`|`, and greedy optional groups `(...)?` / `(?:...)?`). -/
inductive Regex where
  | eps : Regex
  | char (c : Char) : Regex
  | cat (r₁ r₂ : Regex) : Regex
  | alt (r₁ r₂ : Regex) : Regex
  | opt (r : Regex) : Regex
deriving DecidableEq, Repr

/-- All suffixes remaining after the regex consumes a prefix of `s`,
listed in JavaScript backtracking preference order (alternatives
left-to-right, `?` greedy: with the body first). -/
def Regex.matchEnds : Regex → List Char → List (List Char)
  | .eps, s => [s]
  | .char _, [] => []
  | .char c, x :: xs => if x = c then [xs] else []
  | .cat r₁ r₂, s => (r₁.matchEnds s).flatMap (fun t => r₂.matchEnds t)
  | .alt r₁ r₂, s => r₁.matchEnds s ++ r₂.matchEnds s
  | .opt r, s => r.matchEnds s ++ [s]

/-- The literal regex for a string of plain characters (a bare string
target without regex metacharacters parses to exactly this chain). -/
def Regex.ofList : List Char → Regex
  | [] => .eps
  | c :: cs => .cat (.char c) (Regex.ofList cs)

/-- Literal regex of a Lean string. -/
def Regex.ofString (s : String) : Regex := Regex.ofList s.data

/-- Model of `new RegExp('^' + target + '$').test(s)` (the only way the
plugin queries a compiled pattern): the target's regex must consume the
whole specifier. -/
def testPattern (r : Regex) (s : String) : Bool :=
  (r.matchEnds s.data).any List.isEmpty

/-- One step list of the global-replace scan of `String.prototype.replace`
with a `g`-flagged regex, on fuel (the fuel is always at least
`s.length + 1`, which the scan can never exhaust since every recursive
call strictly shrinks the text).  At each position the first match in
preference order is taken; a zero-length match emits the substitution and
advances one character, mirroring JavaScript `lastIndex` handling. -/
def replaceAllFuel (r : Regex) (sub : List Char) : Nat → List Char → List Char
  | 0, s => s
  | _ + 1, [] =>
    match r.matchEnds [] with
    | [] => []
    | _ :: _ => sub
  | fuel + 1, c :: rest =>
    match (r.matchEnds (c :: rest)).head? with
    | none => c :: replaceAllFuel r sub fuel rest
    | some remaining =>
      if remaining.length = rest.length + 1 then
        sub ++ c :: replaceAllFuel r sub fuel rest
      else
        sub ++ replaceAllFuel r sub fuel remaining

/-- Model of `str.replace(new RegExp(pattern, 'g'), substitution)` for
substitution strings without `$` escapes (the only kind the plugin's
configurations use). -/
def jsReplaceAll (r : Regex) (sub : String) (s : String) : String :=
  ⟨replaceAllFuel r sub.data (s.data.length + 1) s.data⟩

/-- `type Replacement = string | Record<string, string>`; the record keys
are regex sources compiled with flag `g`, kept in insertion order
(`Object.entries` order for string keys). -/
inductive Replacement where
  | str (s : String) : Replacement
  | pats (pairs : List (Regex × String)) : Replacement
deriving DecidableEq, Repr

/-- One user configuration entry, normalised: a bare string target is an
entry with `targetSource` the string itself, `target` its parse, and no
replacement / namedImports (`createRestrictedPackagesMap` treats both
shapes identically).  `target` is the JavaScript parse of
`targetSource`. -/
structure ConfigEntry where
  targetSource : String
  target : Regex
  replacement : Option Replacement
  namedImports : Option (List String)
deriving DecidableEq, Repr

/-- A bare-string entry whose target has no regex metacharacters. -/
def ConfigEntry.exact (s : String) : ConfigEntry :=
  ⟨s, Regex.ofString s, none, none⟩

/-- One entry of the `Map<RegExp, ImportRestrictionOptions>` built by
`createRestrictedPackagesMap`: the compiled `RegExp` (source text
`'^' + target + '$'` plus its matching semantics) and the carried
options.  The JS `Map` iterates in insertion order and keys are distinct
objects, so the whole map is an ordered list of entries. -/
structure CompiledRestriction where
  patternSource : String
  pattern : Regex
  replacement : Option Replacement
  namedImports : Option (List String)
deriving DecidableEq, Repr

/-- `map.set(new RegExp(`^${target}$`), options)` for one entry. -/
def compileEntry (e : ConfigEntry) : CompiledRestriction :=
  ⟨"^" ++ e.targetSource ++ "$", e.target, e.replacement, e.namedImports⟩

/-- `createRestrictedPackagesMap` (restrict-import.ts:42-62). -/
def createRestrictedPackagesMap (options : List ConfigEntry) : List CompiledRestriction :=
  options.map compileEntry

/-- `getPatternDisplayName` (restrict-import.ts:96): strip the first and
last character (the `^`/`$` anchors) from a pattern source. -/
def getPatternDisplayName (regExpPatternSource : String) : String :=
  ⟨(regExpPatternSource.data.drop 1).dropLast⟩

/-- `!restrictedPackageOptions.namedImports?.length`: true when
`namedImports` is null or the empty array. -/
def namedImportsIsEmpty : Option (List String) → Bool
  | none => true
  | some [] => true
  | some (_ :: _) => false

/-- `RestrictedImportCheckResult` (restrict-import.ts:23-27).  The entry
is carried whole: the JS result carries the `RegExp` key, and
`restrictedPackages.get` on that key returns the same entry. -/
inductive CheckResult where
  | module (entry : CompiledRestriction) : CheckResult
  | importedName (entry : CompiledRestriction) (restrictedImportedName : String) : CheckResult
deriving DecidableEq, Repr

/-- `checkIsRestrictedImport` (restrict-import.ts:64-91): walk the table
in order; on the first pattern matching the source, return a module
result when the entry has no named-import scoping, a named result when
one of the entry's `namedImports` is among the statement's bindings, and
otherwise keep scanning the remaining entries. -/
def checkIsRestrictedImport (importSource : String) (namedImports : List String) :
    List CompiledRestriction → Option CheckResult
  | [] => none
  | e :: rest =>
    if testPattern e.pattern importSource then
      if namedImportsIsEmpty e.namedImports then
        some (.module e)
      else
        match (e.namedImports.getD []).find? (fun n => namedImports.contains n) with
        | some n => some (.importedName e n)
        | none => checkIsRestrictedImport importSource namedImports rest
    else
      checkIsRestrictedImport importSource namedImports rest

/-- The guard `typeof patternOptions.replacement === 'string' ||
patternOptions.replacement === null` of the per-binding resolution loop
(restrict-import.ts:462): object-form replacements are excluded. -/
def replacementIsStringOrNull : Option Replacement → Bool
  | none => true
  | some (.str _) => true
  | some (.pats _) => false

/-- Project the string replacement carried into an `ImportRestriction`
(`replacement: patternOptions.replacement` under the guard above). -/
def replacementString : Option Replacement → Option String
  | some (.str s) => some s
  | _ => none

/-- `patternOptions.namedImports && patternOptions.namedImports.includes(importName)`. -/
def namedImportsContains (o : Option (List String)) (n : String) : Bool :=
  match o with
  | some l => l.contains n
  | none => false

/-- `ImportRestriction` (restrict-import.ts:29-33); `rule` is the table
entry the `pattern` field points at. -/
structure ImportRestriction where
  importName : String
  replacement : Option String
  rule : CompiledRestriction
deriving DecidableEq, Repr

/-- Body of the per-binding resolution loop (restrict-import.ts:455-473):
scan the table in order, take the first entry whose pattern matches the
source, whose `namedImports` includes the binding, and whose replacement
is a string or null, and stop (`break`). -/
def findBindingRestriction (importSource importName : String) :
    List CompiledRestriction → Option ImportRestriction
  | [] => none
  | e :: rest =>
    if testPattern e.pattern importSource && namedImportsContains e.namedImports importName
        && replacementIsStringOrNull e.replacement then
      some ⟨importName, replacementString e.replacement, e⟩
    else
      findBindingRestriction importSource importName rest

/-- The whole `namedImports.forEach` loop: one resolution per binding, in
statement order. -/
def collectImportRestrictions (importSource : String) (namedImports : List String)
    (packages : List CompiledRestriction) : List ImportRestriction :=
  namedImports.filterMap (fun n => findBindingRestriction importSource n packages)

/-- An import specifier; `named` carries the imported name as a string,
which is `getImportedName`'s view of both `Identifier` and of
string-literal imported names (restrict-import.ts:10-16). -/
inductive Specifier where
  | dflt (localName : String) : Specifier
  | star (localName : String) : Specifier
  | named (importedName localName : String) : Specifier
deriving DecidableEq, Repr

def Specifier.isNamed : Specifier → Bool
  | .named _ _ => true
  | _ => false

def Specifier.isDflt : Specifier → Bool
  | .dflt _ => true
  | _ => false

def Specifier.isStar : Specifier → Bool
  | .star _ => true
  | _ => false

/-- The structural facts of one `ImportDeclaration` whose source is a
string `Literal`: `source.value`, `source.raw`, the specifier list, and
`sourceCode.getText(node)` (the raw statement text, consulted by
`updateExistingImport`). -/
structure ImportDecl where
  sourceValue : String
  sourceRaw : String
  specifiers : List Specifier
  text : String
deriving DecidableEq, Repr

/-- `specifiers.filter(ImportSpecifier).map(getImportedName)`. -/
def namedBindingsOf (d : ImportDecl) : List String :=
  d.specifiers.filterMap (fun s =>
    match s with
    | .named i _ => some i
    | _ => none)

/-- `SpecifierInfo` (restrict-import.ts:35-38). -/
structure SpecifierInfo where
  imported : String
  localName : String
deriving DecidableEq, Repr

/-- `Array.prototype.join(', ')`. -/
def joinComma : List String → String
  | [] => ""
  | [x] => x
  | x :: y :: xs => x ++ ", " ++ joinComma (y :: xs)

/-- `formatSpecifiers` (restrict-import.ts:103-105). -/
def formatSpecifiers (l : List SpecifierInfo) : String :=
  joinComma (l.map (fun s =>
    if s.imported = s.localName then s.imported else s.imported ++ " as " ++ s.localName))

/-- The `namedText` computed inside `createImportText`
(restrict-import.ts:131-147): named specifiers in order,
`imported` or `imported as local`. -/
def namedText (specifiers : List Specifier) : String :=
  joinComma (specifiers.filterMap (fun s =>
    match s with
    | .named i loc => some (if i = loc then i else i ++ " as " ++ loc)
    | _ => none))

/-- `getQuoteStyle` (restrict-import.ts:98): a single quote when the raw
literal contains one, else a double quote. -/
def getQuoteStyle (target : String) : String :=
  if target.data.contains '\x27' then "\x27" else "\""

/-- `createImportText` (restrict-import.ts:117-153): regenerate an import
statement's text from a specifier list, quote and semicolon style. -/
def createImportText (specifiers : List Specifier) (source quote semicolon : String) : String :=
  match specifiers.find? Specifier.isStar with
  | some (.star n) => "import * as " ++ n ++ " from " ++ quote ++ source ++ quote ++ semicolon
  | _ =>
    match specifiers.find? Specifier.isDflt with
    | some (.dflt n) =>
      if (specifiers.filter Specifier.isNamed).isEmpty then
        "import " ++ n ++ " from " ++ quote ++ source ++ quote ++ semicolon
      else
        "import " ++ n ++ ", \x7b " ++ namedText specifiers ++ " \x7d from " ++
          quote ++ source ++ quote ++ semicolon
    | _ =>
      if (specifiers.filter Specifier.isNamed).isEmpty then
        "import " ++ quote ++ source ++ quote ++ semicolon
      else
        "import \x7b " ++ namedText specifiers ++ " \x7d from " ++
          quote ++ source ++ quote ++ semicolon

/-- A textual edit registered with the host's fixer, tagged by target:
the statement's source literal, the statement itself, another import
statement of the file, or an insertion point right before the
statement. -/
inductive Fix where
  | replaceSourceLiteral (newText : String) : Fix
  | removeNode : Fix
  | replaceNode (newText : String) : Fix
  | replaceExisting (target : ImportDecl) (newText : String) : Fix
  | insertBeforeNode (text : String) : Fix
deriving DecidableEq, Repr

/-- Sequential global replacement of `createPatternReplacer`
(restrict-import.ts:225-228): each `(pattern, replacement)` entry is a
global regex replace over the whole current string, in declared order. -/
def applyReplacementPairs (pairs : List (Regex × String)) (s : String) : String :=
  pairs.foldl (fun acc p => jsReplaceAll p.1 p.2 acc) s

/-- `createModuleReplacer` (restrict-import.ts:233-246): no fix without a
replacement; a string replacement rewrites the source literal; an
object replacement rewrites it with the chained substitutions applied to
`source.value`. -/
def createModuleReplacer (node : ImportDecl) : Option Replacement → Option (List Fix)
  | none => none
  | some (.str s) =>
    some [.replaceSourceLiteral (getQuoteStyle node.sourceRaw ++ s ++ getQuoteStyle node.sourceRaw)]
  | some (.pats pairs) =>
    some [.replaceSourceLiteral (getQuoteStyle node.sourceRaw ++
      applyReplacementPairs pairs node.sourceValue ++ getQuoteStyle node.sourceRaw)]

/-- JavaScript `String.prototype.trim` on our texts. -/
def trimChars (l : List Char) : List Char :=
  ((l.dropWhile Char.isWhitespace).reverse.dropWhile Char.isWhitespace).reverse

/-- Split a list at the first occurrence of `c`: the part before and the
part after (the occurrence removed). -/
def splitAtChar (c : Char) : List Char → Option (List Char × List Char)
  | [] => none
  | x :: xs =>
    if x = c then some ([], xs)
    else (splitAtChar c xs).map (fun p => (x :: p.1, p.2))

/-- The brace surgery of `updateExistingImport`: the match
`/import\s*(?:[^\x7b]*,\s*)?\x7b([^\x7d]*)\x7d/` captures the text between the
first `\x7b` and the next `\x7d` of an import statement's text, and the replace
`/\x7b[^\x7d]*\x7d/` substitutes that first brace group.  Returns
(text before `\x7b`, captured inner text, text after `\x7d`). -/
def braceSplit (text : String) : Option (String × String × String) :=
  match splitAtChar '\x7b' text.data with
  | none => none
  | some (pre, rest) =>
    match splitAtChar '\x7d' rest with
    | none => none
    | some (inner, post) => some (⟨pre⟩, ⟨inner⟩, ⟨post⟩)

/-- `suffix.isSuffixOf`-based model of `String.prototype.endsWith`. -/
def strEndsWith (s suffix : String) : Bool :=
  suffix.data.isSuffixOf s.data

/-- `updateExistingImport` (restrict-import.ts:158-203): skip bindings
already imported by name; if nothing new remains, register no fix; if the
existing import has named specifiers, splice the new names into its brace
group; if it only has a default specifier, rebuild its text outright. -/
def updateExistingImport (existingImport : ImportDecl) (specifiersToAdd : List SpecifierInfo)
    (quote semicolon replacement : String) : List Fix :=
  let existingNamedSpecifiers := namedBindingsOf existingImport
  let newSpecifiersToAdd :=
    specifiersToAdd.filter (fun s => !(existingNamedSpecifiers.contains s.imported))
  if newSpecifiersToAdd.isEmpty then []
  else if !(existingImport.specifiers.filter Specifier.isNamed).isEmpty then
    match braceSplit existingImport.text with
    | some (pre, inner, post) =>
      let combined := (⟨trimChars inner.data⟩ : String) ++ ", " ++
        formatSpecifiers newSpecifiersToAdd
      [.replaceExisting existingImport (pre ++ "\x7b " ++ combined ++ " \x7d" ++ post)]
    | none => []
  else
    match existingImport.specifiers.find? Specifier.isDflt with
    | some (.dflt n) =>
      [.replaceExisting existingImport ("import " ++ n ++ ", \x7b " ++
        formatSpecifiers newSpecifiersToAdd ++ " \x7d from " ++
        quote ++ replacement ++ quote ++ semicolon)]
    | _ => []

/-- `node.source.raw?.endsWith(';') || (node.source.value as string).endsWith(';')`
(restrict-import.ts:257): the semicolon detection consults the source
*literal*, not the statement text. -/
def nodeSemicolon (node : ImportDecl) : String :=
  if strEndsWith node.sourceRaw ";" || strEndsWith node.sourceValue ";" then ";" else ""

/-- `node.specifiers.find(s => ImportSpecifier && imported name = name)`
projected to a `SpecifierInfo` (restrict-import.ts:304-316). -/
def findNamedSpecifier (node : ImportDecl) (name : String) : Option SpecifierInfo :=
  (node.specifiers.filterMap (fun s =>
    match s with
    | .named i loc => if i = name then some (⟨i, loc⟩ : SpecifierInfo) else none
    | _ => none)).head?

/-- The `reduce` grouping restrictions by replacement module
(restrict-import.ts:263-273): a JavaScript object keyed by strings keeps
keys in first-insertion order and appends to each group's list. -/
def insertGrouped (key name : String) :
    List (String × List String) → List (String × List String)
  | [] => [(key, [name])]
  | (k, names) :: rest =>
    if k = key then (k, names ++ [name]) :: rest
    else (k, names) :: insertGrouped key name rest

def groupByReplacement (rs : List ImportRestriction) : List (String × List String) :=
  rs.foldl (fun acc r =>
    match r.replacement with
    | none => acc
    | some repl => insertGrouped repl r.importName acc) []

/-- The original-statement edit of `createMultiNamedImportReplacer`
(restrict-import.ts:276-293): remove the statement when nothing remains,
else regenerate it from the surviving specifiers. -/
def remainingSpecifiersOf (node : ImportDecl) (allRestrictedNames : List String) :
    List Specifier :=
  node.specifiers.filter (fun s =>
    match s with
    | .named i _ => !(allRestrictedNames.contains i)
    | _ => true)

/-- The "update or remove the original import" fixes of
`createMultiNamedImportReplacer` (restrict-import.ts:282-293). -/
def originalStatementFixes (node : ImportDecl) (allRestrictedNames : List String) : List Fix :=
  let remainingSpecifiers := remainingSpecifiersOf node allRestrictedNames
  if remainingSpecifiers.isEmpty then [.removeNode]
  else
    [.replaceNode (createImportText remainingSpecifiers node.sourceValue
      (getQuoteStyle node.sourceRaw) (nodeSemicolon node))]

/-- The fixes produced for one replacement-module group
(restrict-import.ts:302-342): move the group's specifiers into an
existing import of that module if the file has one, else insert a
fresh import right before the statement. -/
def groupFix (file : List ImportDecl) (node : ImportDecl) (g : String × List String) :
    List Fix :=
  let quote := getQuoteStyle node.sourceRaw
  let semicolon := nodeSemicolon node
  let specifiersToMove := g.2.filterMap (fun name => findNamedSpecifier node name)
  if specifiersToMove.isEmpty then []
  else
    match file.find? (fun d => d.sourceValue == g.1) with
    | some existingImport =>
      updateExistingImport existingImport specifiersToMove quote semicolon g.1
    | none =>
      [.insertBeforeNode ("import \x7b " ++ formatSpecifiers specifiersToMove ++
        " \x7d from " ++ quote ++ g.1 ++ quote ++ semicolon ++ "\n")]

/-- All per-group fixes, in group (first-insertion) order. -/
def multiGroupFixes (file : List ImportDecl) (node : ImportDecl)
    (importRestrictions : List ImportRestriction) : List Fix :=
  (groupByReplacement importRestrictions).flatMap (groupFix file node)

/-- `createMultiNamedImportReplacer` (restrict-import.ts:248-346).
`file` is `sourceCode.ast.body` filtered to literal-sourced import
declarations (it contains `node` itself).  Returns `none` for an empty
restriction list (the JS fixer returns `null` there). -/
def createMultiNamedImportReplacer (file : List ImportDecl) (node : ImportDecl)
    (importRestrictions : List ImportRestriction) : Option (List Fix) :=
  if importRestrictions.isEmpty then none
  else
    some (originalStatementFixes node (importRestrictions.map (·.importName)) ++
      multiGroupFixes file node importRestrictions)

/-- One `context.report` call: the message id, the table entry the
violation resolved to, the offending binding for named violations, and
the fix (`none` models a `null` fix). -/
structure Report where
  messageId : String
  ruleEntry : CompiledRestriction
  importedName : Option String
  fix : Option (List Fix)
deriving DecidableEq, Repr

/-- The `ImportDeclaration` handler of `create` (restrict-import.ts:418-494)
for a literal-sourced statement: classify via `checkIsRestrictedImport`,
emit one module report, or resolve every named binding and emit one
report per restriction (each fixable report sharing the same
multi-import fixer built from the full restriction list). -/
def runRule (packages : List CompiledRestriction) (file : List ImportDecl)
    (node : ImportDecl) : List Report :=
  let namedImports := namedBindingsOf node
  match checkIsRestrictedImport node.sourceValue namedImports packages with
  | none => []
  | some (.module e) =>
    [{ messageId :=
        match e.replacement with
        | some (.str _) => "ImportRestrictionWithReplacement"
        | _ => "ImportRestriction"
      , ruleEntry := e
      , importedName := none
      , fix := createModuleReplacer node e.replacement }]
  | some (.importedName _ _) =>
    let importRestrictions := collectImportRestrictions node.sourceValue namedImports packages
    if importRestrictions.isEmpty then []
    else
      importRestrictions.map (fun r =>
        { messageId :=
            if r.replacement.isSome then "ImportedNameRestrictionWithReplacement"
            else "ImportedNameRestriction"
        , ruleEntry := r.rule
        , importedName := some r.importName
        , fix :=
            if r.replacement.isSome then createMultiNamedImportReplacer file node importRestrictions
            else none })

/-! ### Derived predicates characterising the decision loops -/

/-- `s.data.isPrefixOf`-based model of `String.prototype.startsWith`. -/
def strStartsWith (s pre : String) : Bool :=
  pre.data.isPrefixOf s.data

/-- A table entry is decisive for a statement iff its pattern matches the
source and it either has no named-import scoping or scopes at least one
binding the statement actually imports.  `checkIsRestrictedImport` stops
at the first decisive entry and skips all others. -/
def ruleDecisive (src : String) (binds : List String) (e : CompiledRestriction) : Bool :=
  testPattern e.pattern src &&
    (namedImportsIsEmpty e.namedImports ||
      (e.namedImports.getD []).any (fun n => binds.contains n))

/-- Projection of a check result onto its module entry, if any. -/
def moduleResultOf : Option CheckResult → Option CompiledRestriction
  | some (.module e) => some e
  | _ => none

/-- The full guard of the per-binding resolution loop
(restrict-import.ts:457-462). -/
def bindingRuleApplicable (src name : String) (e : CompiledRestriction) : Bool :=
  testPattern e.pattern src && namedImportsContains e.namedImports name
    && replacementIsStringOrNull e.replacement

/-- Follows the claim C2's words (for comparison with the code): the
first rule in configuration order whose pattern matches the module
specifier and whose namedImports list contains the binding name, with no
further condition. -/
def claimFirstBindingRule (src name : String) (l : List CompiledRestriction) :
    Option CompiledRestriction :=
  l.find? (fun e => testPattern e.pattern src && namedImportsContains e.namedImports name)

/-- Follows the claim C3's words (for comparison with the code): the
first rule in configuration order whose pattern matches the statement's
module specifier. -/
def claimFirstMatchingRule (src : String) (l : List CompiledRestriction) :
    Option CompiledRestriction :=
  l.find? (fun e => testPattern e.pattern src)

/-- Statement facts after the host applies a module-replacement fix: the
source literal now reads the quoted new specifier. -/
def applyModuleStringFix (node : ImportDecl) (newSource : String) : ImportDecl :=
  { node with
      sourceValue := newSource
      sourceRaw := getQuoteStyle node.sourceRaw ++ newSource ++ getQuoteStyle node.sourceRaw }

/-- Statement facts of the original statement after the host applies the
named-import fix: exactly the flagged named bindings disappear (the
statement is removed when nothing remains, otherwise regenerated from
`remainingSpecifiersOf`, whose text re-parses to these specifiers). -/
def applyNamedImportFix (packages : List CompiledRestriction) (node : ImportDecl) : ImportDecl :=
  let rs := collectImportRestrictions node.sourceValue (namedBindingsOf node) packages
  { node with specifiers := remainingSpecifiersOf node (rs.map (·.importName)) }

/-! ### Concrete configurations and statements, taken from the rule's
test-suite and the spec's examples -/

/-- The parse of the configured target `with(?:-regex)?-support`. -/
def withRegexSupport : Regex :=
  .cat (Regex.ofString "with") (.cat (.opt (Regex.ofString "-regex")) (Regex.ofString "-support"))

/-- The parse of the substitution key `par(regExp)?tial-`. -/
def parTialPat : Regex :=
  .cat (Regex.ofString "par") (.cat (.opt (Regex.ofString "regExp")) (Regex.ofString "tial-"))

/-- The parse of the substitution key `repla(regExp)?cements`. -/
def replaCementsPat : Regex :=
  .cat (Regex.ofString "repla") (.cat (.opt (Regex.ofString "regExp")) (Regex.ofString "cements"))

/-- The ordered substitution map of the `with-partial-replacements`
configuration entry. -/
def partialPairs : List (Regex × String) :=
  [(parTialPat, "successfully-"), (replaCementsPat, "replaced"), (Regex.ofString "with-", "")]

/-- `import { useState } from 'with-partial-replacements'`. -/
def partialNode : ImportDecl :=
  ⟨"with-partial-replacements", "\x27with-partial-replacements\x27",
   [.named "useState" "useState"],
   "import \x7b useState \x7d from \x27with-partial-replacements\x27"⟩

/-- `{ target: 'restricted-module', namedImports: ['restrictedImport'],
replacement: 'replacement-module' }` compiled. -/
def restrictedModuleRule : CompiledRestriction :=
  compileEntry ⟨"restricted-module", Regex.ofString "restricted-module",
    some (.str "replacement-module"), some ["restrictedImport"]⟩

/-- `import { restrictedImport, allowed } from 'restricted-module'`. -/
def splitNode : ImportDecl :=
  ⟨"restricted-module", "\x27restricted-module\x27",
   [.named "restrictedImport" "restrictedImport", .named "allowed" "allowed"],
   "import \x7b restrictedImport, allowed \x7d from \x27restricted-module\x27"⟩

/-- `import { existingImport } from 'replacement-module';`. -/
def existingNode : ImportDecl :=
  ⟨"replacement-module", "\x27replacement-module\x27",
   [.named "existingImport" "existingImport"],
   "import \x7b existingImport \x7d from \x27replacement-module\x27;"⟩

/-- `import { restrictedImport } from 'restricted-module';`. -/
def restrictedNode : ImportDecl :=
  ⟨"restricted-module", "\x27restricted-module\x27",
   [.named "restrictedImport" "restrictedImport"],
   "import \x7b restrictedImport \x7d from \x27restricted-module\x27;"⟩

/-- `import defaultExport, { restrictedImport, allowed } from
'restricted-module'`. -/
def defaultNode : ImportDecl :=
  ⟨"restricted-module", "\x27restricted-module\x27",
   [.dflt "defaultExport", .named "restrictedImport" "restrictedImport",
    .named "allowed" "allowed"],
   "import defaultExport, \x7b restrictedImport, allowed \x7d from \x27restricted-module\x27"⟩

/-- `import { restrictedImport, allowed } from 'restricted-module';` —
note the trailing semicolon on the statement. -/
def semiNode : ImportDecl :=
  ⟨"restricted-module", "\x27restricted-module\x27",
   [.named "restrictedImport" "restrictedImport", .named "allowed" "allowed"],
   "import \x7b restrictedImport, allowed \x7d from \x27restricted-module\x27;"⟩

/-- `import { restrictedImport } from 'replacement-module'`: an
existing import of the replacement module already importing the moved
name. -/
def existingFullNode : ImportDecl :=
  ⟨"replacement-module", "\x27replacement-module\x27",
   [.named "restrictedImport" "restrictedImport"],
   "import \x7b restrictedImport \x7d from \x27replacement-module\x27"⟩

/-- First rule of the C2 counterexample: same target and binding, but an
object-form (substitution map) replacement. -/
def objReplRule : CompiledRestriction :=
  compileEntry ⟨"m", Regex.ofString "m", some (.pats [(Regex.ofString "m", "x")]), some ["a"]⟩

/-- Second rule of the C2 counterexample: a string replacement. -/
def strReplRule : CompiledRestriction :=
  compileEntry ⟨"m", Regex.ofString "m", some (.str "second"), some ["a"]⟩

/-- `import { a } from 'm'`. -/
def bindingANode : ImportDecl :=
  ⟨"m", "\x27m\x27", [.named "a" "a"], "import \x7b a \x7d from \x27m\x27"⟩

/-- First rule of the C3 counterexample: scoped to named import `x`. -/
def scopedRule : CompiledRestriction :=
  compileEntry ⟨"m", Regex.ofString "m", none, some ["x"]⟩

/-- Second rule of the C3 counterexample: the bare string target `m`. -/
def bareRule : CompiledRestriction :=
  compileEntry (ConfigEntry.exact "m")

/-- `import { y } from 'm'`. -/
def bindingYNode : ImportDecl :=
  ⟨"m", "\x27m\x27", [.named "y" "y"], "import \x7b y \x7d from \x27m\x27"⟩

/-- The bare string target `lodash`, compiled. -/
def lodashRule : CompiledRestriction :=
  compileEntry (ConfigEntry.exact "lodash")

/-- `import _ from 'lodash'`. -/
def lodashNode : ImportDecl :=
  ⟨"lodash", "\x27lodash\x27", [.dflt "_"], "import _ from \x27lodash\x27"⟩

/-- `{ target: 'react', replacement: 'preact' }` compiled. -/
def reactRule : CompiledRestriction :=
  compileEntry ⟨"react", Regex.ofString "react", some (.str "preact"), none⟩

/-- `import { useState } from 'react'`. -/
def reactNode : ImportDecl :=
  ⟨"react", "\x27react\x27", [.named "useState" "useState"],
   "import \x7b useState \x7d from \x27react\x27"⟩

/-! ## Shared lemmas -/

theorem any_isEmpty_matchEnds_ofList :
    ∀ l s : List Char, ((Regex.ofList l).matchEnds s).any List.isEmpty = true ↔ s = l := by
  intro l
  induction l with
  | nil =>
    intro s
    cases s <;> simp [Regex.ofList, Regex.matchEnds]
  | cons c cs ih =>
    intro s
    cases s with
    | nil => simp [Regex.ofList, Regex.matchEnds]
    | cons x xs =>
      by_cases hx : x = c
      · subst hx
        simp [Regex.ofList, Regex.matchEnds, ih]
      · simp [Regex.ofList, Regex.matchEnds, hx]

theorem string_data_eq_iff (s t : String) : s.data = t.data ↔ s = t := by
  constructor
  · intro h
    cases s
    cases t
    exact congrArg String.mk h
  · intro h
    rw [h]

theorem testPattern_ofString_iff (t s : String) :
    testPattern (Regex.ofString t) s = true ↔ s = t := by
  unfold testPattern Regex.ofString
  rw [any_isEmpty_matchEnds_ofList, string_data_eq_iff]

/-! ## C1 -/

/-- C1: every compiled pattern is wrapped with start/end anchors, and a
specifier matches only via a full-string match of the target: an
exact-string target `T` flags exactly the imports whose specifier equals
`T` (never a proper superstring or substring), and the regex target
`with(?:-regex)?-support` matches `with-support` and
`with-regex-support` but not `with-regex-support-extra`. -/
theorem claim1_full_anchoring :
    (∀ e : ConfigEntry,
      strStartsWith (compileEntry e).patternSource "^" = true ∧
      strEndsWith (compileEntry e).patternSource "$" = true) ∧
    (∀ t s : String, testPattern (Regex.ofString t) s = true ↔ s = t) ∧
    (testPattern withRegexSupport "with-support" = true ∧
      testPattern withRegexSupport "with-regex-support" = true ∧
      testPattern withRegexSupport "with-regex-support-extra" = false) := by
  refine ⟨fun e => ⟨?_, ?_⟩, testPattern_ofString_iff, by decide⟩
  · simp [strStartsWith, compileEntry, String.data_append, List.isPrefixOf]
  · simp [strEndsWith, compileEntry, String.data_append, List.isSuffixOf, List.reverse_append,
      List.isPrefixOf]

/-- Closed instance of C1's full-match equivalence. -/
theorem claim1_full_anchoring_witness :
    testPattern (Regex.ofString "lodash") "lodash" = true ∧
    testPattern (Regex.ofString "lodash") "lodash-es" = false :=
  ⟨(claim1_full_anchoring.2.1 "lodash" "lodash").mpr rfl, by decide⟩

/-! ## C2 -/

theorem findBindingRestriction_cons (src name : String) (e : CompiledRestriction)
    (rest : List CompiledRestriction) :
    findBindingRestriction src name (e :: rest) =
      if bindingRuleApplicable src name e then
        some ⟨name, replacementString e.replacement, e⟩
      else findBindingRestriction src name rest := rfl

theorem findBindingRestriction_eq_find (src name : String) :
    ∀ l : List CompiledRestriction,
      findBindingRestriction src name l =
        (l.find? (bindingRuleApplicable src name)).map
          (fun e => (⟨name, replacementString e.replacement, e⟩ : ImportRestriction)) := by
  intro l
  induction l with
  | nil => rfl
  | cons e rest ih =>
    rw [findBindingRestriction_cons]
    cases hb : bindingRuleApplicable src name e with
    | true => rw [List.find?_cons_of_pos _ hb]; simp
    | false => rw [List.find?_cons_of_neg _ (by simp [hb])]; simpa using ih

theorem findBindingRestriction_some {src name : String} {l : List CompiledRestriction}
    {r : ImportRestriction} (h : findBindingRestriction src name l = some r) :
    r.importName = name ∧ r.replacement = replacementString r.rule.replacement ∧
      bindingRuleApplicable src name r.rule = true ∧ r.rule ∈ l := by
  rw [findBindingRestriction_eq_find] at h
  rcases Option.map_eq_some'.mp h with ⟨e, hfind, hmk⟩
  cases hmk
  exact ⟨rfl, rfl, List.find?_some hfind, List.mem_of_find?_eq_some hfind⟩

theorem findBindingRestriction_none {src name : String} {l : List CompiledRestriction} :
    findBindingRestriction src name l = none ↔
      ∀ e ∈ l, ¬ bindingRuleApplicable src name e = true := by
  rw [findBindingRestriction_eq_find]
  simp [List.find?_eq_none]

/-- C2 counterexample: two rules both claim binding `a` of module `m`;
the first carries an object-form replacement.  The claim's
first-match resolution picks the first rule, but the code resolves the
binding to the second rule, and the emitted report indeed carries the
second rule. -/
theorem claim2_counterexample :
    claimFirstBindingRule "m" "a" [objReplRule, strReplRule] = some objReplRule ∧
    findBindingRestriction "m" "a" [objReplRule, strReplRule] =
      some ⟨"a", some "second", strReplRule⟩ ∧
    (runRule [objReplRule, strReplRule] [bindingANode] bindingANode).map Report.ruleEntry =
      [strReplRule] ∧
    objReplRule ≠ strReplRule := by decide

/-- C2 (amended): the rule applied to a named binding is the first rule
in configuration order whose pattern matches the module specifier, whose
namedImports list contains the binding name, and whose replacement is a
string or absent — rules carrying an object-form substitution map are
skipped for named bindings.  Subsequent qualifying rules are never
consulted, so among qualifying rules the earliest deterministically
wins. -/
theorem claim2_first_qualifying_rule_wins :
    (∀ src name : String, ∀ l : List CompiledRestriction,
      findBindingRestriction src name l =
        (l.find? (bindingRuleApplicable src name)).map
          (fun e => (⟨name, replacementString e.replacement, e⟩ : ImportRestriction))) ∧
    (∀ src name : String, ∀ e : CompiledRestriction, ∀ rest : List CompiledRestriction,
      bindingRuleApplicable src name e = true →
        findBindingRestriction src name (e :: rest) =
          some ⟨name, replacementString e.replacement, e⟩) := by
  refine ⟨findBindingRestriction_eq_find, fun src name e rest h => ?_⟩
  rw [findBindingRestriction_cons, if_pos h]

/-- Closed instance of C2 (amended): the earlier of two qualifying rules
wins. -/
theorem claim2_first_qualifying_rule_wins_witness :
    findBindingRestriction "m" "a" [strReplRule, objReplRule] =
      some ⟨"a", some "second", strReplRule⟩ :=
  claim2_first_qualifying_rule_wins.2 "m" "a" strReplRule [objReplRule] (by decide)

/-! ## C3 -/

theorem checkIsRestrictedImport_cons (src : String) (binds : List String)
    (e : CompiledRestriction) (rest : List CompiledRestriction) :
    checkIsRestrictedImport src binds (e :: rest) =
      if testPattern e.pattern src then
        if namedImportsIsEmpty e.namedImports then some (.module e)
        else
          match (e.namedImports.getD []).find? (fun n => binds.contains n) with
          | some n => some (.importedName e n)
          | none => checkIsRestrictedImport src binds rest
      else checkIsRestrictedImport src binds rest := rfl

theorem checkIsRestrictedImport_eq_find (src : String) (binds : List String) :
    ∀ l : List CompiledRestriction,
      moduleResultOf (checkIsRestrictedImport src binds l) =
        (l.find? (ruleDecisive src binds)).bind
          (fun e => if namedImportsIsEmpty e.namedImports then some e else none) := by
  intro l
  induction l with
  | nil => rfl
  | cons e rest ih =>
    rw [checkIsRestrictedImport_cons]
    by_cases ht : testPattern e.pattern src = true
    · rw [if_pos ht]
      by_cases he : namedImportsIsEmpty e.namedImports = true
      · rw [if_pos he]
        have hd : ruleDecisive src binds e = true := by simp [ruleDecisive, ht, he]
        rw [List.find?_cons_of_pos _ hd]
        simp [moduleResultOf, he]
      · rw [if_neg he]
        have he' : namedImportsIsEmpty e.namedImports = false := by simpa using he
        cases hn : (e.namedImports.getD []).find? (fun n => binds.contains n) with
        | some n =>
          have hd : ruleDecisive src binds e = true := by
            have hmem := List.mem_of_find?_eq_some hn
            have hcont : binds.contains n = true := List.find?_some hn
            simp [ruleDecisive, ht, he', List.any_eq_true]
            exact ⟨n, hmem, by simpa using hcont⟩
          rw [List.find?_cons_of_pos _ hd]
          simp [moduleResultOf, he']
        | none =>
          have hd : ¬ ruleDecisive src binds e = true := by
            intro hcontra
            simp [ruleDecisive, ht, he', List.any_eq_true] at hcontra
            rcases hcontra with ⟨x, hx, hxb⟩
            have hnone := List.find?_eq_none.mp hn x hx
            simp at hnone
            exact hnone hxb
          rw [List.find?_cons_of_neg _ hd]
          exact ih
    · rw [if_neg ht]
      have hd : ¬ ruleDecisive src binds e = true := by simp [ruleDecisive, ht]
      rw [List.find?_cons_of_neg _ hd]
      exact ih

/-- C3 counterexample: the first rule whose pattern matches `m` is scoped
to named import `x`, which the statement `import { y } from 'm'` does not
draw — yet a whole-module violation is emitted, resolved from the later
bare rule `m`. -/
theorem claim3_counterexample :
    claimFirstMatchingRule "m" [scopedRule, bareRule] = some scopedRule ∧
    namedImportsIsEmpty scopedRule.namedImports = false ∧
    checkIsRestrictedImport "m" ["y"] [scopedRule, bareRule] = some (.module bareRule) ∧
    (runRule [scopedRule, bareRule] [bindingYNode] bindingYNode).map Report.messageId =
      ["ImportRestriction"] := by decide

/-- C3 (amended): a whole-module violation is emitted iff the first rule
in configuration order that is decisive for the statement — its pattern
matches the specifier and it either has no namedImports restriction or
restricts one of the statement's named bindings — has no namedImports
restriction.  A matching rule scoped to named imports none of which the
statement draws is skipped, so a later rule may still yield a
whole-module violation; but when the decisive rule is scoped to
named imports, evaluation proceeds per binding and no whole-module
violation is emitted for the statement. -/
theorem claim3_module_iff_first_decisive :
    (∀ src : String, ∀ binds : List String, ∀ l : List CompiledRestriction,
      moduleResultOf (checkIsRestrictedImport src binds l) =
        (l.find? (ruleDecisive src binds)).bind
          (fun e => if namedImportsIsEmpty e.namedImports then some e else none)) ∧
    (∀ packages : List CompiledRestriction, ∀ file : List ImportDecl, ∀ node : ImportDecl,
      ∀ e : CompiledRestriction, ∀ n : String,
      checkIsRestrictedImport node.sourceValue (namedBindingsOf node) packages =
        some (.importedName e n) →
      ((runRule packages file node).all (fun rep =>
        rep.messageId != "ImportRestriction" &&
        rep.messageId != "ImportRestrictionWithReplacement")) = true) := by
  refine ⟨checkIsRestrictedImport_eq_find, fun packages file node e n h => ?_⟩
  simp only [runRule, h]
  generalize collectImportRestrictions node.sourceValue (namedBindingsOf node) packages = rs
  cases hemp : rs.isEmpty
  · rw [if_neg (by simp [hemp]), List.all_eq_true]
    intro x hx
    rcases List.mem_map.mp hx with ⟨r, hr, rfl⟩
    cases hb : r.replacement.isSome <;> simp [hb]
  · rw [if_pos (by simp [hemp])]
    rfl

/-- Closed instance of C3 (amended): a statement resolved per named
binding yields only named-import reports. -/
theorem claim3_module_iff_first_decisive_witness :
    ((runRule [restrictedModuleRule] [splitNode] splitNode).all (fun rep =>
      rep.messageId != "ImportRestriction" &&
      rep.messageId != "ImportRestrictionWithReplacement")) = true :=
  claim3_module_iff_first_decisive.2 [restrictedModuleRule] [splitNode] splitNode
    restrictedModuleRule "restrictedImport" (by decide)

/-! ## C4 -/

theorem updateExistingImport_mem_shape {existingImport : ImportDecl}
    {specifiersToAdd : List SpecifierInfo} {quote semicolon replacement : String} {f : Fix}
    (hf : f ∈ updateExistingImport existingImport specifiersToAdd quote semicolon replacement) :
    ∃ t, f = .replaceExisting existingImport t := by
  simp only [updateExistingImport] at hf
  split at hf
  · simp at hf
  · split at hf
    · split at hf
      · simp at hf
        exact ⟨_, hf⟩
      · simp at hf
    · split at hf
      · simp at hf
        exact ⟨_, hf⟩
      · simp at hf

theorem multiGroupFixes_mem_shape {file : List ImportDecl} {node : ImportDecl}
    {rs : List ImportRestriction} {f : Fix} (hf : f ∈ multiGroupFixes file node rs) :
    (∃ t, f = .insertBeforeNode t) ∨ ∃ d t, f = .replaceExisting d t := by
  simp only [multiGroupFixes, List.mem_flatMap] at hf
  rcases hf with ⟨g, _, hf⟩
  simp only [groupFix] at hf
  split at hf
  · simp at hf
  · split at hf
    · rcases updateExistingImport_mem_shape hf with ⟨t, ht⟩
      exact Or.inr ⟨_, t, ht⟩
    · simp at hf
      exact Or.inl ⟨_, hf⟩

theorem removeNode_not_mem_multiGroupFixes (file : List ImportDecl) (node : ImportDecl)
    (rs : List ImportRestriction) : Fix.removeNode ∉ multiGroupFixes file node rs := by
  intro h
  rcases multiGroupFixes_mem_shape h with ⟨t, ht⟩ | ⟨d, t, ht⟩ <;> simp at ht

theorem replaceNode_not_mem_multiGroupFixes (file : List ImportDecl) (node : ImportDecl)
    (rs : List ImportRestriction) (txt : String) :
    Fix.replaceNode txt ∉ multiGroupFixes file node rs := by
  intro h
  rcases multiGroupFixes_mem_shape h with ⟨t, ht⟩ | ⟨d, t, ht⟩ <;> simp at ht

theorem isEmpty_false_of_ne_nil {α : Type} {l : List α} (h : l ≠ []) : l.isEmpty = false := by
  cases l with
  | nil => exact absurd rfl h
  | cons x xs => rfl

/-- C4: when every specifier of the statement is a flagged named binding
the edit plan removes the whole statement; otherwise it replaces the
statement with a regenerated import containing exactly the remaining
unflagged specifiers (in the original quote/semicolon style), and the
relocation fixes never remove or replace the original statement again.
Concretely, `import { restrictedImport, allowed } from
'restricted-module'` becomes `import { restrictedImport } from
'replacement-module'` inserted before `import { allowed } from
'restricted-module'`, and a default specifier survives the rewrite. -/
theorem claim4_remove_or_regenerate :
    (∀ file : List ImportDecl, ∀ node : ImportDecl, ∀ rs : List ImportRestriction,
      rs ≠ [] →
      remainingSpecifiersOf node (rs.map ImportRestriction.importName) = [] →
        createMultiNamedImportReplacer file node rs =
          some (Fix.removeNode :: multiGroupFixes file node rs)) ∧
    (∀ file : List ImportDecl, ∀ node : ImportDecl, ∀ rs : List ImportRestriction,
      rs ≠ [] →
      remainingSpecifiersOf node (rs.map ImportRestriction.importName) ≠ [] →
        createMultiNamedImportReplacer file node rs =
          some (Fix.replaceNode (createImportText
              (remainingSpecifiersOf node (rs.map ImportRestriction.importName))
              node.sourceValue (getQuoteStyle node.sourceRaw) (nodeSemicolon node)) ::
            multiGroupFixes file node rs)) ∧
    (∀ file : List ImportDecl, ∀ node : ImportDecl, ∀ rs : List ImportRestriction,
      Fix.removeNode ∉ multiGroupFixes file node rs ∧
      ∀ txt : String, Fix.replaceNode txt ∉ multiGroupFixes file node rs) ∧
    (createMultiNamedImportReplacer [splitNode] splitNode
        (collectImportRestrictions splitNode.sourceValue (namedBindingsOf splitNode)
          [restrictedModuleRule]) =
      some [Fix.replaceNode "import \x7b allowed \x7d from \x27restricted-module\x27",
        Fix.insertBeforeNode
          "import \x7b restrictedImport \x7d from \x27replacement-module\x27\n"]) ∧
    (createMultiNamedImportReplacer [defaultNode] defaultNode
        (collectImportRestrictions defaultNode.sourceValue (namedBindingsOf defaultNode)
          [restrictedModuleRule]) =
      some [Fix.replaceNode
          "import defaultExport, \x7b allowed \x7d from \x27restricted-module\x27",
        Fix.insertBeforeNode
          "import \x7b restrictedImport \x7d from \x27replacement-module\x27\n"]) := by
  refine ⟨?_, ?_, ?_, by decide, by decide⟩
  · intro file node rs hne hrem
    simp [createMultiNamedImportReplacer, isEmpty_false_of_ne_nil hne,
      originalStatementFixes, hrem]
  · intro file node rs hne hrem
    simp [createMultiNamedImportReplacer, isEmpty_false_of_ne_nil hne,
      originalStatementFixes, isEmpty_false_of_ne_nil hrem]
  · intro file node rs
    exact ⟨removeNode_not_mem_multiGroupFixes file node rs,
      fun txt => replaceNode_not_mem_multiGroupFixes file node rs txt⟩

/-- Closed instance of C4: a statement whose only specifier is flagged is
removed outright. -/
theorem claim4_remove_or_regenerate_witness :
    createMultiNamedImportReplacer [restrictedNode] restrictedNode
        (collectImportRestrictions restrictedNode.sourceValue (namedBindingsOf restrictedNode)
          [restrictedModuleRule]) =
      some (Fix.removeNode :: multiGroupFixes [restrictedNode] restrictedNode
        (collectImportRestrictions restrictedNode.sourceValue (namedBindingsOf restrictedNode)
          [restrictedModuleRule])) :=
  claim4_remove_or_regenerate.1 [restrictedNode] restrictedNode _ (by decide) (by decide)

/-! ## C5 -/

/-- C5: for a replacement-module group, when the file already has
an import whose specifier equals the replacement module, the moved
bindings are spliced into that statement's brace group, skipping every binding
whose imported name is already present there; when no such import
exists, a fresh standalone import of the group is inserted immediately
before the original statement, terminated by a newline.  Concretely, a
pre-existing `import { existingImport } from 'replacement-module';`
absorbs `restrictedImport` and the offending statement is removed. -/
theorem claim5_merge_or_insert :
    (∀ file : List ImportDecl, ∀ node ex : ImportDecl, ∀ rs : List ImportRestriction,
      ∀ repl pre inner post : String, ∀ names : List String,
      groupByReplacement rs = [(repl, names)] →
      names.filterMap (findNamedSpecifier node) ≠ [] →
      file.find? (fun d => d.sourceValue == repl) = some ex →
      (names.filterMap (findNamedSpecifier node)).filter
        (fun s => !((namedBindingsOf ex).contains s.imported)) ≠ [] →
      (ex.specifiers.filter Specifier.isNamed).isEmpty = false →
      braceSplit ex.text = some (pre, inner, post) →
      multiGroupFixes file node rs =
        [Fix.replaceExisting ex (pre ++ "\x7b " ++ (⟨trimChars inner.data⟩ : String) ++ ", " ++
          formatSpecifiers ((names.filterMap (findNamedSpecifier node)).filter
            (fun s => !((namedBindingsOf ex).contains s.imported))) ++ " \x7d" ++ post)]) ∧
    (∀ file : List ImportDecl, ∀ node : ImportDecl, ∀ rs : List ImportRestriction,
      ∀ repl : String, ∀ names : List String,
      groupByReplacement rs = [(repl, names)] →
      names.filterMap (findNamedSpecifier node) ≠ [] →
      file.find? (fun d => d.sourceValue == repl) = none →
      multiGroupFixes file node rs =
        [Fix.insertBeforeNode ("import \x7b " ++
          formatSpecifiers (names.filterMap (findNamedSpecifier node)) ++ " \x7d from " ++
          getQuoteStyle node.sourceRaw ++ repl ++ getQuoteStyle node.sourceRaw ++
          nodeSemicolon node ++ "\n")]) ∧
    (createMultiNamedImportReplacer [existingNode, restrictedNode] restrictedNode
        (collectImportRestrictions restrictedNode.sourceValue (namedBindingsOf restrictedNode)
          [restrictedModuleRule]) =
      some [Fix.removeNode, Fix.replaceExisting existingNode
        "import \x7b existingImport, restrictedImport \x7d from \x27replacement-module\x27;"]) := by
  refine ⟨?_, ?_, by decide⟩
  · intro file node ex rs repl pre inner post names hgrp hmov hfind hnew hnamed hbrace
    simp only [multiGroupFixes, hgrp, List.flatMap_cons, List.flatMap_nil, List.append_nil,
      groupFix, isEmpty_false_of_ne_nil hmov, hfind]
    simp only [updateExistingImport, isEmpty_false_of_ne_nil hnew, hnamed, hbrace]
    simp [String.append_assoc]
  · intro file node rs repl names hgrp hmov hfind
    simp only [multiGroupFixes, hgrp, List.flatMap_cons, List.flatMap_nil, List.append_nil,
      groupFix, isEmpty_false_of_ne_nil hmov, hfind]
    simp

/-- Closed instance of C5: the merge case on the test-suite's merge
scenario. -/
theorem claim5_merge_or_insert_witness :
    multiGroupFixes [existingNode, restrictedNode] restrictedNode
        (collectImportRestrictions restrictedNode.sourceValue (namedBindingsOf restrictedNode)
          [restrictedModuleRule]) =
      [Fix.replaceExisting existingNode
        "import \x7b existingImport, restrictedImport \x7d from \x27replacement-module\x27;"] := by
  have h := claim5_merge_or_insert.1 [existingNode, restrictedNode] restrictedNode existingNode
    (collectImportRestrictions restrictedNode.sourceValue (namedBindingsOf restrictedNode)
      [restrictedModuleRule])
    "replacement-module" "import " " existingImport " " from \x27replacement-module\x27;"
    ["restrictedImport"] (by decide) (by decide) (by decide) (by decide) (by decide) (by decide)
  rw [h]
  decide

/-! ## C6 -/

/-- C6: an ordered substitution-map replacement derives the new module
specifier by applying each (pattern, substitution) pair in declared
order as a global regex replacement over the entire current specifier
string: the head pair rewrites the whole current string and the rest of
the chain continues from the result.  The pairs
`par(regExp)?tial- → successfully-`, `repla(regExp)?cements → replaced`,
`with- → ` applied to `with-partial-replacements` step through
`with-successfully-replacements` and `with-successfully-replaced` to
yield `successfully-replaced`, and the module fixer rewrites the source
literal accordingly. -/
theorem claim6_sequential_global_replacement :
    (∀ r : Regex, ∀ sub s : String, ∀ rest : List (Regex × String),
      applyReplacementPairs ((r, sub) :: rest) s =
        applyReplacementPairs rest (jsReplaceAll r sub s)) ∧
    jsReplaceAll parTialPat "successfully-" "with-partial-replacements" =
      "with-successfully-replacements" ∧
    jsReplaceAll replaCementsPat "replaced" "with-successfully-replacements" =
      "with-successfully-replaced" ∧
    jsReplaceAll (Regex.ofString "with-") "" "with-successfully-replaced" =
      "successfully-replaced" ∧
    applyReplacementPairs partialPairs "with-partial-replacements" = "successfully-replaced" ∧
    createModuleReplacer partialNode (some (.pats partialPairs)) =
      some [Fix.replaceSourceLiteral "\x27successfully-replaced\x27"] :=
  ⟨fun _ _ _ _ => rfl, by decide, by decide, by decide, by decide, by decide⟩

/-! ## C7 -/

/-- C7 (code defect): the rewriter's semicolon detection consults the
source *literal* — `node.source.raw?.endsWith(';') ||
(node.source.value as string).endsWith(';')` — and a string literal's
raw text ends with its closing quote, never with the statement's
trailing semicolon.  On `import { restrictedImport, allowed } from
'restricted-module';` (statement text ending in `;`) the regenerated
statement and the synthesized import are both emitted without a
semicolon.  The quote character, taken from the literal's raw text, is
preserved. -/
theorem claim7_semicolon_dropped :
    strEndsWith semiNode.text ";" = true ∧
    nodeSemicolon semiNode = "" ∧
    getQuoteStyle semiNode.sourceRaw = "\x27" ∧
    createMultiNamedImportReplacer [semiNode] semiNode
        (collectImportRestrictions semiNode.sourceValue (namedBindingsOf semiNode)
          [restrictedModuleRule]) =
      some [Fix.replaceNode "import \x7b allowed \x7d from \x27restricted-module\x27",
        Fix.insertBeforeNode
          "import \x7b restrictedImport \x7d from \x27replacement-module\x27\n"] ∧
    strEndsWith "import \x7b allowed \x7d from \x27restricted-module\x27" ";" = false := by
  decide

/-! ## C8 -/

theorem mem_collectImportRestrictions {src : String} {binds : List String}
    {pkgs : List CompiledRestriction} {r : ImportRestriction}
    (h : r ∈ collectImportRestrictions src binds pkgs) :
    r.importName ∈ binds ∧ findBindingRestriction src r.importName pkgs = some r := by
  simp only [collectImportRestrictions, List.mem_filterMap] at h
  rcases h with ⟨n, hn, hfind⟩
  have hname := (findBindingRestriction_some hfind).1
  exact ⟨hname ▸ hn, hname ▸ hfind⟩

/-- C8: every emitted report whose resolved rule has no configured
replacement carries a `null` fix: no edit plan is produced for it. -/
theorem claim8_no_replacement_null_fix :
    ∀ packages : List CompiledRestriction, ∀ file : List ImportDecl, ∀ node : ImportDecl,
      ∀ rep ∈ runRule packages file node,
        rep.ruleEntry.replacement = none → rep.fix = none := by
  intro packages file node rep hrep hnone
  simp only [runRule] at hrep
  split at hrep
  · simp at hrep
  · simp at hrep
    subst hrep
    simp only at hnone
    simp [hnone, createModuleReplacer]
  · split at hrep
    · simp at hrep
    · rcases List.mem_map.mp hrep with ⟨r, hr, rfl⟩
      simp only at hnone ⊢
      have hmem := mem_collectImportRestrictions hr
      have hrepl := (findBindingRestriction_some hmem.2).2.1
      rw [hnone] at hrepl
      simp [replacementString] at hrepl
      simp [hrepl]

/-- Closed instance of C8: the bare `lodash` rule reports with a null
fix. -/
theorem claim8_no_replacement_null_fix_witness :
    ({ messageId := "ImportRestriction", ruleEntry := lodashRule, importedName := none,
        fix := none } : Report).fix = none :=
  claim8_no_replacement_null_fix [lodashRule] [lodashNode] lodashNode
    { messageId := "ImportRestriction", ruleEntry := lodashRule, importedName := none,
      fix := none }
    (by decide) (by decide)

/-! ## C9 -/

theorem check_none_of_no_match {src : String} {binds : List String} :
    ∀ {l : List CompiledRestriction}, (∀ e ∈ l, testPattern e.pattern src = false) →
      checkIsRestrictedImport src binds l = none := by
  intro l
  induction l with
  | nil => intro _; rfl
  | cons e rest ih =>
    intro h
    rw [checkIsRestrictedImport_cons]
    simp [h e (List.mem_cons_self e rest),
      ih (fun x hx => h x (List.mem_cons_of_mem _ hx))]

theorem check_module_isEmpty {src : String} {binds : List String} :
    ∀ {l : List CompiledRestriction} {e : CompiledRestriction},
      checkIsRestrictedImport src binds l = some (.module e) →
      namedImportsIsEmpty e.namedImports = true := by
  intro l
  induction l with
  | nil => intro e h; simp [checkIsRestrictedImport] at h
  | cons e' rest ih =>
    intro e h
    rw [checkIsRestrictedImport_cons] at h
    split at h
    · split at h
      · rename_i hemp
        cases h
        exact hemp
      · split at h
        · simp at h
        · exact ih h
    · exact ih h

theorem isEmpty_false_of_contains {o : Option (List String)} {n : String}
    (h : namedImportsContains o n = true) : namedImportsIsEmpty o = false := by
  cases o with
  | none => simp [namedImportsContains] at h
  | some l =>
    cases l with
    | nil => simp [namedImportsContains] at h
    | cons x xs => rfl

theorem namedBindings_remaining (specs : List Specifier) (names : List String) :
    (specs.filter (fun s =>
      match s with
      | .named i _ => !(names.contains i)
      | _ => true)).filterMap (fun s =>
      match s with
      | .named i _ => some i
      | _ => none) =
    (specs.filterMap (fun s =>
      match s with
      | .named i _ => some i
      | _ => none)).filter (fun b => !(names.contains b)) := by
  induction specs with
  | nil => rfl
  | cons s rest ih =>
    cases s with
    | dflt n => simpa using ih
    | star n => simpa using ih
    | named i loc =>
      by_cases hc : i ∈ names
      · simpa [hc] using ih
      · simpa [hc] using ih

theorem namedBindingsOf_applyNamedImportFix (pkgs : List CompiledRestriction)
    (node : ImportDecl) :
    namedBindingsOf (applyNamedImportFix pkgs node) =
      (namedBindingsOf node).filter (fun b =>
        !(((collectImportRestrictions node.sourceValue (namedBindingsOf node) pkgs).map
          ImportRestriction.importName).contains b)) := by
  simp only [applyNamedImportFix, namedBindingsOf, remainingSpecifiersOf]
  exact namedBindings_remaining _ _

theorem find_none_of_remaining {pkgs : List CompiledRestriction} {node : ImportDecl}
    {b : String} (hb : b ∈ namedBindingsOf (applyNamedImportFix pkgs node)) :
    findBindingRestriction node.sourceValue b pkgs = none := by
  rw [namedBindingsOf_applyNamedImportFix] at hb
  rcases List.mem_filter.mp hb with ⟨hbin, hnc⟩
  cases hf : findBindingRestriction node.sourceValue b pkgs with
  | none => rfl
  | some r =>
    exfalso
    have hname := (findBindingRestriction_some hf).1
    have hrmem : r ∈ collectImportRestrictions node.sourceValue (namedBindingsOf node) pkgs :=
      List.mem_filterMap.mpr ⟨b, hbin, hf⟩
    have hbmem : b ∈ (collectImportRestrictions node.sourceValue (namedBindingsOf node)
        pkgs).map ImportRestriction.importName :=
      List.mem_map.mpr ⟨r, hrmem, hname⟩
    have hnotin : b ∉ (collectImportRestrictions node.sourceValue (namedBindingsOf node)
        pkgs).map ImportRestriction.importName := by simpa using hnc
    exact hnotin hbmem

theorem collect_fixed_nil (pkgs : List CompiledRestriction) (node : ImportDecl) :
    collectImportRestrictions node.sourceValue
      (namedBindingsOf (applyNamedImportFix pkgs node)) pkgs = [] := by
  rw [collectImportRestrictions, List.filterMap_eq_nil_iff]
  intro b hb
  exact find_none_of_remaining hb

/-- C9: the second run after applying a fix is clean.  For a module
violation with replacement, when no configured pattern matches the new
specifier the rewritten statement produces no violation at all; for
named-import violations, the regenerated original statement (with the
flagged bindings removed) never again reports any of the rules that
fired — a module report can only come from a rule without named-import
scoping, which none of the fired rules is, and no named binding that
survives resolves to any rule. -/
theorem claim9_idempotence :
    (∀ pkgs : List CompiledRestriction, ∀ file : List ImportDecl, ∀ node : ImportDecl,
      ∀ newSource : String,
      (∀ e ∈ pkgs, testPattern e.pattern newSource = false) →
      runRule pkgs file (applyModuleStringFix node newSource) = []) ∧
    (∀ pkgs : List CompiledRestriction, ∀ file : List ImportDecl, ∀ node : ImportDecl,
      ∀ rep ∈ runRule pkgs file (applyNamedImportFix pkgs node),
      ∀ r ∈ collectImportRestrictions node.sourceValue (namedBindingsOf node) pkgs,
        rep.ruleEntry ≠ r.rule) := by
  constructor
  · intro pkgs file node newSource h
    have hnone : checkIsRestrictedImport (applyModuleStringFix node newSource).sourceValue
        (namedBindingsOf (applyModuleStringFix node newSource)) pkgs = none :=
      check_none_of_no_match h
    simp [runRule, hnone]
  · intro pkgs file node rep hrep r hr
    cases hcase : checkIsRestrictedImport (applyNamedImportFix pkgs node).sourceValue
        (namedBindingsOf (applyNamedImportFix pkgs node)) pkgs with
    | none => simp [runRule, hcase] at hrep
    | some cr =>
      cases cr with
      | importedName e n =>
        simp only [runRule, hcase] at hrep
        have hnil : collectImportRestrictions (applyNamedImportFix pkgs node).sourceValue
            (namedBindingsOf (applyNamedImportFix pkgs node)) pkgs = [] :=
          collect_fixed_nil pkgs node
        rw [hnil] at hrep
        simp at hrep
      | module e =>
        simp only [runRule, hcase] at hrep
        simp at hrep
        subst hrep
        have he : namedImportsIsEmpty e.namedImports = true := check_module_isEmpty hcase
        have happ := (findBindingRestriction_some (mem_collectImportRestrictions hr).2).2.2.1
        simp only [bindingRuleApplicable, Bool.and_eq_true] at happ
        have hne : namedImportsIsEmpty r.rule.namedImports = false :=
          isEmpty_false_of_contains happ.1.2
        intro heq
        simp only at heq
        rw [heq] at he
        rw [he] at hne
        exact absurd hne (by simp)

/-- Closed instance of C9: the module fix `react → preact` leaves nothing
to report. -/
theorem claim9_idempotence_witness :
    runRule [reactRule] [reactNode] (applyModuleStringFix reactNode "preact") = [] :=
  claim9_idempotence.1 [reactRule] [reactNode] reactNode "preact" (by decide)

/-! ## C10 -/

/-- C10: when every binding to be relocated is already imported by name
in the existing import of the replacement module, no edit is registered
for that existing statement, while the original offending statement is
still removed or regenerated (the plan consists of the original-statement
fix alone).  Concretely, relocating `restrictedImport` into a file that
already has `import { restrictedImport } from 'replacement-module'`
yields only the removal of the offending statement. -/
theorem claim10_existing_import_untouched :
    (∀ ex : ImportDecl, ∀ toMove : List SpecifierInfo, ∀ q sc repl : String,
      (∀ s ∈ toMove, s.imported ∈ namedBindingsOf ex) →
      updateExistingImport ex toMove q sc repl = []) ∧
    (∀ file : List ImportDecl, ∀ node ex : ImportDecl, ∀ rs : List ImportRestriction,
      ∀ repl : String, ∀ names : List String,
      rs ≠ [] →
      groupByReplacement rs = [(repl, names)] →
      file.find? (fun d => d.sourceValue == repl) = some ex →
      (∀ s ∈ names.filterMap (findNamedSpecifier node), s.imported ∈ namedBindingsOf ex) →
      createMultiNamedImportReplacer file node rs =
        some (originalStatementFixes node (rs.map ImportRestriction.importName))) ∧
    (createMultiNamedImportReplacer [existingFullNode, restrictedNode] restrictedNode
        (collectImportRestrictions restrictedNode.sourceValue (namedBindingsOf restrictedNode)
          [restrictedModuleRule]) =
      some [Fix.removeNode]) := by
  have hupd : ∀ ex : ImportDecl, ∀ toMove : List SpecifierInfo, ∀ q sc repl : String,
      (∀ s ∈ toMove, s.imported ∈ namedBindingsOf ex) →
      updateExistingImport ex toMove q sc repl = [] := by
    intro ex toMove q sc repl h
    have hnil : toMove.filter (fun s => !((namedBindingsOf ex).contains s.imported)) = [] := by
      rw [List.filter_eq_nil_iff]
      intro s hs
      simp [h s hs]
    simp only [updateExistingImport, hnil]
    rfl
  refine ⟨hupd, ?_, by decide⟩
  intro file node ex rs repl names hne hgrp hfind hall
  have hgf : multiGroupFixes file node rs = [] := by
    simp only [multiGroupFixes, hgrp, List.flatMap_cons, List.flatMap_nil, List.append_nil,
      groupFix]
    cases hmov : (names.filterMap (findNamedSpecifier node)).isEmpty
    · rw [hfind] at *
      simp only [Bool.false_eq_true, if_false, hfind]
      exact hupd ex _ _ _ _ (by
        intro s hs
        exact hall s hs)
    · simp [hmov]
  simp [createMultiNamedImportReplacer, isEmpty_false_of_ne_nil hne, hgf]

/-- Closed instance of C10: nothing new to add means no fix from
`updateExistingImport`. -/
theorem claim10_existing_import_untouched_witness :
    updateExistingImport existingFullNode
      [{ imported := "restrictedImport", localName := "restrictedImport" }]
      "\x27" "" "replacement-module" = [] :=
  claim10_existing_import_untouched.1 existingFullNode
    [{ imported := "restrictedImport", localName := "restrictedImport" }]
    "\x27" "" "replacement-module" (by decide)

end RestrictImport
